import Mathlib

/-!
Verification of the anterajaSdk request/response/error pipeline
(`src/Client.ts` = `Client.request`, `src/errors.ts`).

The embedding is a shallow one: the JavaScript values that flow through the
pipeline are modelled by executable Lean definitions.  JSON documents are
modelled by the mutual inductive `Json` below; `JSON.stringify` and
`JSON.parse` are modelled by `Json.stringify` and `Json.parse`, a serializer
and a recursive-descent parser over `List Char`.  JSON numbers are modelled
as integers (IEEE-754 double formatting is outside the embedding); JSON
strings are sequences of unicode scalar values, so lone surrogates are not
representable and `\uXXXX` escapes in the surrogate range are rejected by
the modelled parser.
-/

/-- The whitespace characters `JSON.parse` skips between tokens. -/
def isWsChar (c : Char) : Bool :=
  c = ' ' || c = '\t' || c = '\n' || c = '\r'

/-- Decimal digit character for a digit value (`0`-`9`); total, garbage in
garbage out above 9. -/
def digitChar : Nat → Char
  | 0 => '0' | 1 => '1' | 2 => '2' | 3 => '3' | 4 => '4'
  | 5 => '5' | 6 => '6' | 7 => '7' | 8 => '8' | 9 => '9'
  | _ => '0'

/-- Lower-case hexadecimal digit character for a value (`0`-`15`). -/
def hexDigitChar : Nat → Char
  | 0 => '0' | 1 => '1' | 2 => '2' | 3 => '3' | 4 => '4'
  | 5 => '5' | 6 => '6' | 7 => '7' | 8 => '8' | 9 => '9'
  | 10 => 'a' | 11 => 'b' | 12 => 'c' | 13 => 'd' | 14 => 'e' | 15 => 'f'
  | _ => '0'

/-- Value of a hexadecimal digit character, upper or lower case. -/
def hexValOf (c : Char) : Option Nat :=
  if '0' ≤ c ∧ c ≤ '9' then some (c.toNat - '0'.toNat)
  else if 'a' ≤ c ∧ c ≤ 'f' then some (c.toNat - 'a'.toNat + 10)
  else if 'A' ≤ c ∧ c ≤ 'F' then some (c.toNat - 'A'.toNat + 10)
  else none

mutual
/-- A JSON document (`JSON.parse` result / `JSON.stringify` argument).
Numbers are modelled as integers.  Objects keep their members in textual
order, duplicates included, as a parsed JavaScript object is built by
assigning the members in order. -/
inductive Json where
  | null : Json
  | bool (b : Bool) : Json
  | num (n : Int) : Json
  | str (s : String) : Json
  | arr (elems : JsonList) : Json
  | obj (members : JsonMembers) : Json

/-- The element list of a JSON array. -/
inductive JsonList where
  | nil : JsonList
  | cons (hd : Json) (tl : JsonList) : JsonList

/-- The member list of a JSON object. -/
inductive JsonMembers where
  | nil : JsonMembers
  | cons (key : String) (val : Json) (tl : JsonMembers) : JsonMembers
end

/-- Decimal digit string of a natural number, most significant digit first. -/
def natChars (n : Nat) : List Char :=
  if _h : n < 10 then [digitChar n]
  else natChars (n / 10) ++ [digitChar (n % 10)]
termination_by n
decreasing_by exact Nat.div_lt_self (by omega) (by omega)

/-- Decimal digit string of an integer (with leading `-` when negative). -/
def intChars (i : Int) : List Char :=
  if i < 0 then '-' :: natChars i.natAbs else natChars i.natAbs

/-- How `JSON.stringify` escapes one character inside a string literal:
quote and backslash get a backslash escape, the five named control
characters get their short escapes, the remaining control characters get a
`\u00XX` escape, and everything else is emitted as itself. -/
def escapeChar (c : Char) : List Char :=
  if c = '"' then ['\\', '"']
  else if c = '\\' then ['\\', '\\']
  else if c = '\x08' then ['\\', 'b']
  else if c = '\t' then ['\\', 't']
  else if c = '\n' then ['\\', 'n']
  else if c = '\x0c' then ['\\', 'f']
  else if c = '\r' then ['\\', 'r']
  else if c.toNat < 32 then
    ['\\', 'u', '0', '0', hexDigitChar (c.toNat / 16), hexDigitChar (c.toNat % 16)]
  else [c]

/-- `escapeChar` applied to every character of a string body. -/
def escapeChars : List Char → List Char
  | [] => []
  | c :: cs => escapeChar c ++ escapeChars cs

mutual
/-- Characters of the `JSON.stringify` serialization of a value. -/
def schars : Json → List Char
  | Json.null => ['n', 'u', 'l', 'l']
  | Json.bool true => ['t', 'r', 'u', 'e']
  | Json.bool false => ['f', 'a', 'l', 's', 'e']
  | Json.num i => intChars i
  | Json.str s => '"' :: escapeChars s.data ++ ['"']
  | Json.arr l => '[' :: scharsItems l ++ [']']
  | Json.obj m => '\x7b' :: scharsMembers m ++ ['\x7d']

/-- Comma-separated serialization of array elements. -/
def scharsItems : JsonList → List Char
  | JsonList.nil => []
  | JsonList.cons x JsonList.nil => schars x
  | JsonList.cons x (JsonList.cons y t) =>
      schars x ++ ',' :: scharsItems (JsonList.cons y t)

/-- Comma-separated serialization of object members. -/
def scharsMembers : JsonMembers → List Char
  | JsonMembers.nil => []
  | JsonMembers.cons k v JsonMembers.nil =>
      '"' :: escapeChars k.data ++ '"' :: ':' :: schars v
  | JsonMembers.cons k v (JsonMembers.cons k₂ v₂ t) =>
      '"' :: escapeChars k.data ++ '"' :: ':' :: schars v
        ++ ',' :: scharsMembers (JsonMembers.cons k₂ v₂ t)
end

/-- Model of `JSON.stringify`. -/
def Json.stringify (v : Json) : String :=
  String.mk (schars v)

/-- Skip JSON whitespace. -/
def skipWs : List Char → List Char
  | [] => []
  | c :: cs => if isWsChar c then skipWs cs else c :: cs

/-- Match an expected literal character sequence, returning the rest. -/
def expectChars : List Char → List Char → Option (List Char)
  | [], cs => some cs
  | _ :: _, [] => none
  | p :: ps, c :: cs => if c = p then expectChars ps cs else none

/-- Accumulate a maximal run of decimal digits into a value. -/
def parseDigitsAux : List Char → Nat → Nat × List Char
  | [], acc => (acc, [])
  | c :: cs, acc =>
      if c.isDigit then parseDigitsAux cs (acc * 10 + (c.toNat - '0'.toNat))
      else (acc, c :: cs)

/-- Parse the body of a JSON string literal (the opening quote already
consumed), returning the decoded characters and the input after the closing
quote.  Escapes follow the JSON grammar; `\uXXXX` escapes in the surrogate
range are rejected (the model's strings hold unicode scalar values). -/
def parseStringBody : List Char → Option (List Char × List Char)
  | [] => none
  | c :: rest =>
    if c = '"' then some ([], rest)
    else if c = '\\' then
      match rest with
      | [] => none
      | e :: rest₂ =>
        if e = '"' ∨ e = '\\' ∨ e = '/' then
          (parseStringBody rest₂).map (fun p => (e :: p.1, p.2))
        else if e = 'b' then
          (parseStringBody rest₂).map (fun p => ('\x08' :: p.1, p.2))
        else if e = 't' then
          (parseStringBody rest₂).map (fun p => ('\t' :: p.1, p.2))
        else if e = 'n' then
          (parseStringBody rest₂).map (fun p => ('\n' :: p.1, p.2))
        else if e = 'f' then
          (parseStringBody rest₂).map (fun p => ('\x0c' :: p.1, p.2))
        else if e = 'r' then
          (parseStringBody rest₂).map (fun p => ('\r' :: p.1, p.2))
        else if e = 'u' then
          match rest₂ with
          | h₁ :: h₂ :: h₃ :: h₄ :: rest₃ =>
            match hexValOf h₁, hexValOf h₂, hexValOf h₃, hexValOf h₄ with
            | some a, some b, some c₃, some d =>
              let v := a * 4096 + b * 256 + c₃ * 16 + d
              if 0xD800 ≤ v ∧ v < 0xE000 then none
              else (parseStringBody rest₃).map (fun p => (Char.ofNat v :: p.1, p.2))
            | _, _, _, _ => none
          | _ => none
        else none
    else if c.toNat < 32 then none
    else (parseStringBody rest).map (fun p => (c :: p.1, p.2))

mutual
/-- Fuel-indexed recursive-descent parser for one JSON value, the model of
`JSON.parse` (see `Json.parse` for the fuel at the top level). -/
def parseVal : Nat → List Char → Option (Json × List Char)
  | 0, _ => none
  | fuel + 1, cs =>
    match skipWs cs with
    | [] => none
    | c :: rest =>
      if c = '"' then
        (parseStringBody rest).map (fun p => (Json.str (String.mk p.1), p.2))
      else if c = '[' then
        match skipWs rest with
        | [] => none
        | c₂ :: rest₂ =>
          if c₂ = ']' then some (Json.arr JsonList.nil, rest₂)
          else (parseArrItems fuel (c₂ :: rest₂)).map (fun p => (Json.arr p.1, p.2))
      else if c = '\x7b' then
        match skipWs rest with
        | [] => none
        | c₂ :: rest₂ =>
          if c₂ = '\x7d' then some (Json.obj JsonMembers.nil, rest₂)
          else (parseObjItems fuel (c₂ :: rest₂)).map (fun p => (Json.obj p.1, p.2))
      else if c = 't' then
        (expectChars ['r', 'u', 'e'] rest).map (fun r => (Json.bool true, r))
      else if c = 'f' then
        (expectChars ['a', 'l', 's', 'e'] rest).map (fun r => (Json.bool false, r))
      else if c = 'n' then
        (expectChars ['u', 'l', 'l'] rest).map (fun r => (Json.null, r))
      else if c = '-' then
        match rest with
        | [] => none
        | d :: rest₂ =>
          if d.isDigit then
            let p := parseDigitsAux (d :: rest₂) 0
            some (Json.num (-(p.1 : Int)), p.2)
          else none
      else if c.isDigit then
        let p := parseDigitsAux (c :: rest) 0
        some (Json.num (p.1 : Int), p.2)
      else none

/-- Parse one or more comma-separated array elements followed by `]`. -/
def parseArrItems : Nat → List Char → Option (JsonList × List Char)
  | 0, _ => none
  | fuel + 1, cs =>
    match parseVal fuel cs with
    | none => none
    | some (v, r) =>
      match skipWs r with
      | [] => none
      | c :: r₂ =>
        if c = ',' then
          (parseArrItems fuel r₂).map (fun p => (JsonList.cons v p.1, p.2))
        else if c = ']' then some (JsonList.cons v JsonList.nil, r₂)
        else none

/-- Parse one or more comma-separated object members followed by `}`. -/
def parseObjItems : Nat → List Char → Option (JsonMembers × List Char)
  | 0, _ => none
  | fuel + 1, cs =>
    match skipWs cs with
    | [] => none
    | c :: r =>
      if c = '"' then
        match parseStringBody r with
        | none => none
        | some (k, r₁) =>
          match skipWs r₁ with
          | [] => none
          | c₂ :: r₂ =>
            if c₂ = ':' then
              match parseVal fuel r₂ with
              | none => none
              | some (v, r₃) =>
                match skipWs r₃ with
                | [] => none
                | c₃ :: r₄ =>
                  if c₃ = ',' then
                    (parseObjItems fuel r₄).map
                      (fun p => (JsonMembers.cons (String.mk k) v p.1, p.2))
                  else if c₃ = '\x7d' then
                    some (JsonMembers.cons (String.mk k) v JsonMembers.nil, r₄)
                  else none
            else none
      else none
end

/-- Model of `JSON.parse`: parse one value, allow trailing whitespace,
reject trailing garbage, `none` models a thrown `SyntaxError`. -/
def Json.parse (s : String) : Option Json :=
  match parseVal (s.data.length + 1) s.data with
  | none => none
  | some (v, rest) => if skipWs rest = [] then some v else none

deriving instance DecidableEq for Json
deriving instance DecidableEq for JsonList
deriving instance DecidableEq for JsonMembers

/-! ### Round-trip of the modelled serializer and parser -/

/-- `true` when the list does not start with a decimal digit, so a maximal
digit run ending just before it is read back unchanged. -/
def isDelim : List Char → Bool
  | [] => true
  | c :: _ => !c.isDigit

theorem skipWs_not_ws {c : Char} (cs : List Char) (h : isWsChar c = false) :
    skipWs (c :: cs) = c :: cs := by
  simp [skipWs, h]

theorem expectChars_append : ∀ (p rest : List Char), expectChars p (p ++ rest) = some rest
  | [], _ => rfl
  | c :: p, rest => by simp [expectChars, expectChars_append p rest]

theorem digitChar_facts : ∀ d : Nat, d < 10 →
    (digitChar d).isDigit = true ∧ isWsChar (digitChar d) = false ∧
    digitChar d ≠ '"' ∧ digitChar d ≠ '[' ∧ digitChar d ≠ '\x7b' ∧
    digitChar d ≠ 't' ∧ digitChar d ≠ 'f' ∧ digitChar d ≠ 'n' ∧ digitChar d ≠ '-' ∧
    digitChar d ≠ ']' ∧ digitChar d ≠ '\x7d' ∧
    (digitChar d).toNat - 48 = d := by decide

theorem hexValOf_hexDigitChar : ∀ k : Nat, k < 16 → hexValOf (hexDigitChar k) = some k := by
  decide

theorem natChars_head (n : Nat) :
    ∃ d tl, d < 10 ∧ natChars n = digitChar d :: tl := by
  induction n using Nat.strong_induction_on with
  | _ n ih =>
    rw [natChars.eq_def]
    split
    · next h => exact ⟨n, [], h, rfl⟩
    · next h =>
      obtain ⟨d, tl, hd, heq⟩ := ih (n / 10) (Nat.div_lt_self (by omega) (by omega))
      exact ⟨d, tl ++ [digitChar (n % 10)], hd, by rw [heq]; rfl⟩

theorem parseDigitsAux_natChars (n : Nat) : ∀ (suffix : List Char) (a : Nat),
    parseDigitsAux (natChars n ++ suffix) a
      = parseDigitsAux suffix (a * 10 ^ (natChars n).length + n) := by
  induction n using Nat.strong_induction_on with
  | _ n ih =>
    intro suffix a
    rw [natChars.eq_def]
    split
    · next h =>
      obtain ⟨hdig, -, -, -, -, -, -, -, -, -, -, hval⟩ := digitChar_facts n h
      have h0 : '0'.toNat = 48 := rfl
      simp only [parseDigitsAux, hdig, if_pos, h0, hval, List.cons_append, List.nil_append,
        pow_one]
      simp
    · next h =>
      have hlt : n / 10 < n := Nat.div_lt_self (by omega) (by omega)
      rw [List.append_assoc, ih (n / 10) hlt]
      have h10 : n % 10 < 10 := Nat.mod_lt _ (by omega)
      obtain ⟨hdig, -, -, -, -, -, -, -, -, -, -, hval⟩ := digitChar_facts (n % 10) h10
      have h0 : '0'.toNat = 48 := rfl
      simp only [List.singleton_append, parseDigitsAux, hdig, if_pos, h0, hval,
        List.length_append, List.length_singleton]
      have hdm : n / 10 * 10 + n % 10 = n := by omega
      have harith : (a * 10 ^ (natChars (n / 10)).length + n / 10) * 10 + n % 10
          = a * 10 ^ ((natChars (n / 10)).length + 1) + (n / 10 * 10 + n % 10) := by
        rw [pow_succ]; ring
      rw [harith, hdm]
      rfl

theorem parseDigitsAux_stop (l : List Char) (a : Nat) (h : isDelim l = true) :
    parseDigitsAux l a = (a, l) := by
  cases l with
  | nil => rfl
  | cons c cs =>
    simp only [isDelim, Bool.not_eq_true'] at h
    simp [parseDigitsAux, h]

theorem stringMk_data (s : String) : String.mk s.data = s := rfl

theorem parseStringBody_escapeChar (c : Char) (tail : List Char) :
    parseStringBody (escapeChar c ++ tail)
      = (parseStringBody tail).map (fun p => (c :: p.1, p.2)) := by
  by_cases h1 : c = '"'
  · subst h1; rw [parseStringBody.eq_def]; simp [escapeChar]
  by_cases h2 : c = '\\'
  · subst h2; rw [parseStringBody.eq_def]; simp [escapeChar]
  by_cases h3 : c = '\x08'
  · subst h3; rw [parseStringBody.eq_def]; simp [escapeChar]
  by_cases h4 : c = '\t'
  · subst h4; rw [parseStringBody.eq_def]; simp [escapeChar]
  by_cases h5 : c = '\n'
  · subst h5; rw [parseStringBody.eq_def]; simp [escapeChar]
  by_cases h6 : c = '\x0c'
  · subst h6; rw [parseStringBody.eq_def]; simp [escapeChar]
  by_cases h7 : c = '\r'
  · subst h7; rw [parseStringBody.eq_def]; simp [escapeChar]
  by_cases h8 : c.toNat < 32
  · have hdiv : c.toNat / 16 < 16 := by omega
    have hmod : c.toNat % 16 < 16 := Nat.mod_lt _ (by omega)
    have hu3 := hexValOf_hexDigitChar _ hdiv
    have hu4 := hexValOf_hexDigitChar _ hmod
    have h0 : hexValOf '0' = some 0 := by decide
    have hval : 0 * 4096 + 0 * 256 + c.toNat / 16 * 16 + c.toNat % 16 = c.toNat := by omega
    have hns : ¬(0xD800 ≤ 0 * 4096 + 0 * 256 + c.toNat / 16 * 16 + c.toNat % 16 ∧
        0 * 4096 + 0 * 256 + c.toNat / 16 * 16 + c.toNat % 16 < 0xE000) := by omega
    simp only [escapeChar, if_neg h1, if_neg h2, if_neg h3, if_neg h4, if_neg h5, if_neg h6,
      if_neg h7, if_pos h8, List.cons_append, List.nil_append]
    rw [parseStringBody.eq_def]
    simp only [h0, hu3, hu4]
    rw [if_neg hns, hval, Char.ofNat_toNat]
    simp
  · have hplain : escapeChar c = [c] := by
      simp only [escapeChar, if_neg h1, if_neg h2, if_neg h3, if_neg h4, if_neg h5, if_neg h6,
        if_neg h7, if_neg h8]
    rw [hplain, List.singleton_append, parseStringBody.eq_def]
    simp only [if_neg h1, if_neg h2, if_neg h8]

theorem parseStringBody_escapeChars : ∀ (cs tail : List Char),
    parseStringBody (escapeChars cs ++ '"' :: tail) = some (cs, tail)
  | [], tail => by rw [escapeChars, List.nil_append, parseStringBody.eq_def]; simp
  | c :: cs, tail => by
    rw [escapeChars, List.append_assoc, parseStringBody_escapeChar,
      parseStringBody_escapeChars cs tail]
    rfl

theorem schars_head_facts (v : Json) :
    ∃ c tl, schars v = c :: tl ∧ isWsChar c = false ∧ c ≠ ']' ∧ c ≠ '\x7d' := by
  cases v with
  | null => refine ⟨'n', _, rfl, ?_, ?_, ?_⟩ <;> decide
  | bool b =>
    cases b with
    | true => refine ⟨'t', _, rfl, ?_, ?_, ?_⟩ <;> decide
    | false => refine ⟨'f', _, rfl, ?_, ?_, ?_⟩ <;> decide
  | num i =>
    show ∃ c tl, intChars i = c :: tl ∧ _
    rw [intChars]
    by_cases hi : i < 0
    · rw [if_pos hi]
      refine ⟨'-', _, rfl, ?_, ?_, ?_⟩ <;> decide
    · rw [if_neg hi]
      obtain ⟨d, tl, hd, heq⟩ := natChars_head i.natAbs
      obtain ⟨-, hws, -, -, -, -, -, -, -, hrb, hcb, -⟩ := digitChar_facts d hd
      exact ⟨digitChar d, tl, heq, hws, hrb, hcb⟩
  | str s => refine ⟨'"', _, rfl, ?_, ?_, ?_⟩ <;> decide
  | arr l => refine ⟨'[', _, rfl, ?_, ?_, ?_⟩ <;> decide
  | obj m => refine ⟨'\x7b', _, rfl, ?_, ?_, ?_⟩ <;> decide

theorem scharsItems_cons_head (x : Json) (t : JsonList) (A : List Char) :
    ∃ c tl, scharsItems (JsonList.cons x t) ++ A = c :: tl ∧
      isWsChar c = false ∧ c ≠ ']' ∧ c ≠ '\x7d' := by
  obtain ⟨c, tl0, heq, hws, hrb, hcb⟩ := schars_head_facts x
  cases t with
  | nil =>
    refine ⟨c, tl0 ++ A, ?_, hws, hrb, hcb⟩
    rw [scharsItems, heq]; rfl
  | cons y t₂ =>
    refine ⟨c, tl0 ++ ',' :: scharsItems (JsonList.cons y t₂) ++ A, ?_, hws, hrb, hcb⟩
    rw [scharsItems, heq]; simp

mutual
/-- Fuel sufficient for `parseVal` to parse the serialization of a value. -/
def fvJson : Json → Nat
  | Json.null => 1
  | Json.bool _ => 1
  | Json.num _ => 1
  | Json.str _ => 1
  | Json.arr JsonList.nil => 1
  | Json.arr (JsonList.cons x t) => 1 + fvItems (JsonList.cons x t)
  | Json.obj JsonMembers.nil => 1
  | Json.obj (JsonMembers.cons k v t) => 1 + fvMembers (JsonMembers.cons k v t)

/-- Fuel sufficient for `parseArrItems` on a serialized element list. -/
def fvItems : JsonList → Nat
  | JsonList.nil => 0
  | JsonList.cons x t => 1 + fvJson x + fvItems t

/-- Fuel sufficient for `parseObjItems` on a serialized member list. -/
def fvMembers : JsonMembers → Nat
  | JsonMembers.nil => 0
  | JsonMembers.cons _ v t => 1 + fvJson v + fvMembers t
end

theorem parseNum_natChars (n : Nat) (rest : List Char) (hdelim : isDelim rest = true) :
    parseDigitsAux (natChars n ++ rest) 0 = (n, rest) := by
  rw [parseDigitsAux_natChars, parseDigitsAux_stop rest _ hdelim]
  simp

theorem fvJson_pos (v : Json) : 1 ≤ fvJson v := by
  cases v with
  | null => exact le_refl 1
  | bool b => exact le_refl 1
  | num i => exact le_refl 1
  | str s => exact le_refl 1
  | arr l => cases l <;> simp [fvJson]
  | obj m => cases m <;> simp [fvJson]

theorem isDelim_cons (c : Char) (l : List Char) (h : c.isDigit = false) :
    isDelim (c :: l) = true := by
  simp [isDelim, h]

theorem scharsMembers_cons_head (k : String) (w : Json) (t : JsonMembers) (A : List Char) :
    ∃ tl, scharsMembers (JsonMembers.cons k w t) ++ A = '"' :: tl := by
  cases t with
  | nil =>
    exact ⟨escapeChars k.data ++ '"' :: ':' :: schars w ++ A, by rw [scharsMembers]; simp⟩
  | cons k₂ w₂ t₂ =>
    exact ⟨escapeChars k.data ++ '"' :: ':' :: schars w
      ++ ',' :: scharsMembers (JsonMembers.cons k₂ w₂ t₂) ++ A, by rw [scharsMembers]; simp⟩

theorem roundtripAux : ∀ fuel : Nat,
    (∀ (v : Json) (rest : List Char), fvJson v ≤ fuel → isDelim rest = true →
      parseVal fuel (schars v ++ rest) = some (v, rest)) ∧
    (∀ (x : Json) (t : JsonList) (rest : List Char),
      fvItems (JsonList.cons x t) ≤ fuel →
      parseArrItems fuel (scharsItems (JsonList.cons x t) ++ ']' :: rest)
        = some (JsonList.cons x t, rest)) ∧
    (∀ (k : String) (w : Json) (t : JsonMembers) (rest : List Char),
      fvMembers (JsonMembers.cons k w t) ≤ fuel →
      parseObjItems fuel (scharsMembers (JsonMembers.cons k w t) ++ '\x7d' :: rest)
        = some (JsonMembers.cons k w t, rest)) := by
  intro fuel
  induction fuel with
  | zero =>
    refine ⟨?_, ?_, ?_⟩
    · intro v rest hfv _
      exact absurd (le_trans (fvJson_pos v) hfv) (by omega)
    · intro x t rest hfv
      exact absurd hfv (by simp [fvItems])
    · intro k w t rest hfv
      exact absurd hfv (by simp [fvMembers])
  | succ fuel ih =>
    obtain ⟨ih1, ih2, ih3⟩ := ih
    refine ⟨?_, ?_, ?_⟩
    · intro v rest hfv hdelim
      cases v with
      | null =>
        show parseVal (fuel + 1) (['n', 'u', 'l', 'l'] ++ rest) = _
        simp [parseVal, skipWs, isWsChar, expectChars]
      | bool b =>
        cases b with
        | true =>
          show parseVal (fuel + 1) (['t', 'r', 'u', 'e'] ++ rest) = _
          simp [parseVal, skipWs, isWsChar, expectChars]
        | false =>
          show parseVal (fuel + 1) (['f', 'a', 'l', 's', 'e'] ++ rest) = _
          simp [parseVal, skipWs, isWsChar, expectChars]
      | str s =>
        have hsh : schars (Json.str s) ++ rest = '"' :: (escapeChars s.data ++ '"' :: rest) := by
          rw [schars]; simp
        rw [hsh]
        simp [parseVal, skipWs, isWsChar, parseStringBody_escapeChars, stringMk_data]
      | num i =>
        by_cases hi : i < 0
        · have hsh : schars (Json.num i) = '-' :: natChars i.natAbs := by
            rw [schars, intChars, if_pos hi]
          obtain ⟨d, tl, hd, hnc⟩ := natChars_head i.natAbs
          obtain ⟨hdig, hws, -, -, -, -, -, -, -, -, -, -⟩ := digitChar_facts d hd
          rw [hsh, List.cons_append, hnc, List.cons_append]
          simp only [parseVal]
          rw [skipWs_not_ws _ (by decide : isWsChar '-' = false)]
          simp only [hdig, if_pos]
          rw [show digitChar d :: (tl ++ rest) = natChars i.natAbs ++ rest from by
            rw [hnc]; rfl]
          rw [parseNum_natChars _ _ hdelim]
          simp [abs_of_neg hi]
        · have hsh : schars (Json.num i) = natChars i.natAbs := by
            rw [schars, intChars, if_neg hi]
          obtain ⟨d, tl, hd, hnc⟩ := natChars_head i.natAbs
          obtain ⟨hdig, hws, hq, hlb, hob, ht, hf, hn, hm, -, -, -⟩ := digitChar_facts d hd
          rw [hsh, hnc, List.cons_append]
          simp only [parseVal]
          rw [skipWs_not_ws _ hws]
          simp only [if_neg hq, if_neg hlb, if_neg hob, if_neg ht, if_neg hf, if_neg hn,
            if_neg hm, hdig, if_pos]
          rw [show digitChar d :: (tl ++ rest) = natChars i.natAbs ++ rest from by
            rw [hnc]; rfl]
          rw [parseNum_natChars _ _ hdelim]
          simp [abs_of_nonneg (not_lt.mp hi)]
      | arr l =>
        cases l with
        | nil =>
          show parseVal (fuel + 1) (('[' :: scharsItems JsonList.nil ++ [']']) ++ rest) = _
          rw [scharsItems]
          simp [parseVal, skipWs, isWsChar]
        | cons x t =>
          have hsh : schars (Json.arr (JsonList.cons x t)) ++ rest
              = '[' :: (scharsItems (JsonList.cons x t) ++ ']' :: rest) := by
            rw [schars]; simp
          obtain ⟨c, tl, heq, hws, hrb, hcb⟩ := scharsItems_cons_head x t (']' :: rest)
          have hsw1 : skipWs ('[' :: (scharsItems (JsonList.cons x t) ++ ']' :: rest))
              = '[' :: (scharsItems (JsonList.cons x t) ++ ']' :: rest) :=
            skipWs_not_ws _ (by decide)
          have hsw2 : skipWs (scharsItems (JsonList.cons x t) ++ ']' :: rest) = c :: tl := by
            rw [heq]; exact skipWs_not_ws _ hws
          rw [hsh]
          simp only [parseVal, hsw1, hsw2]
          simp only [show (('[' : Char) = '"') = False from by simp,
            show (('[' : Char) = '[') = True from by simp, if_false, if_true]
          rw [if_neg hrb, ← heq]
          rw [ih2 x t rest (by simp only [fvJson] at hfv; omega)]
          rfl
      | obj m =>
        cases m with
        | nil =>
          show parseVal (fuel + 1) (('\x7b' :: scharsMembers JsonMembers.nil ++ ['\x7d']) ++ rest)
              = _
          rw [scharsMembers]
          simp [parseVal, skipWs, isWsChar]
        | cons k w t =>
          have hsh : schars (Json.obj (JsonMembers.cons k w t)) ++ rest
              = '\x7b' :: (scharsMembers (JsonMembers.cons k w t) ++ '\x7d' :: rest) := by
            rw [schars]; simp
          obtain ⟨tl₂, heq⟩ := scharsMembers_cons_head k w t ('\x7d' :: rest)
          have hsw1 : skipWs ('\x7b' :: (scharsMembers (JsonMembers.cons k w t) ++ '\x7d' :: rest))
              = '\x7b' :: (scharsMembers (JsonMembers.cons k w t) ++ '\x7d' :: rest) :=
            skipWs_not_ws _ (by decide)
          have hsw2 : skipWs (scharsMembers (JsonMembers.cons k w t) ++ '\x7d' :: rest)
              = '"' :: tl₂ := by
            rw [heq]; exact skipWs_not_ws _ (by decide)
          rw [hsh]
          simp only [parseVal, hsw1, hsw2]
          simp only [show (('\x7b' : Char) = '"') = False from by simp,
            show (('\x7b' : Char) = '[') = False from by simp,
            show (('\x7b' : Char) = '\x7b') = True from by simp, if_false, if_true]
          rw [if_neg (by decide : ¬('"' : Char) = '\x7d'), ← heq]
          rw [ih3 k w t rest (by simp only [fvJson] at hfv; omega)]
          rfl
    · intro x t rest hfv
      have hfx : fvJson x ≤ fuel := by simp only [fvItems] at hfv; omega
      cases t with
      | nil =>
        show parseArrItems (fuel + 1)
            (scharsItems (JsonList.cons x JsonList.nil) ++ ']' :: rest) = _
        rw [scharsItems]
        have hv := ih1 x (']' :: rest) hfx (isDelim_cons _ _ (by decide))
        have hsw : skipWs (']' :: rest) = ']' :: rest := skipWs_not_ws _ (by decide)
        simp only [parseArrItems, hv, hsw]
        simp only [show ((']' : Char) = ',') = False from by simp,
          show ((']' : Char) = ']') = True from by simp, if_false, if_true]
      | cons y t₂ =>
        show parseArrItems (fuel + 1)
            (scharsItems (JsonList.cons x (JsonList.cons y t₂)) ++ ']' :: rest) = _
        rw [scharsItems, List.append_assoc, List.cons_append]
        have hv := ih1 x (',' :: (scharsItems (JsonList.cons y t₂) ++ ']' :: rest)) hfx
          (isDelim_cons _ _ (by decide))
        have hsw : skipWs (',' :: (scharsItems (JsonList.cons y t₂) ++ ']' :: rest))
            = ',' :: (scharsItems (JsonList.cons y t₂) ++ ']' :: rest) :=
          skipWs_not_ws _ (by decide)
        simp only [parseArrItems, hv, hsw]
        simp only [show ((',' : Char) = ',') = True from by simp, if_true]
        rw [ih2 y t₂ rest (by simp only [fvItems] at hfv ⊢; omega)]
        rfl
    · intro k w t rest hfv
      have hfw : fvJson w ≤ fuel := by simp only [fvMembers] at hfv; omega
      cases t with
      | nil =>
        show parseObjItems (fuel + 1)
            (scharsMembers (JsonMembers.cons k w JsonMembers.nil) ++ '\x7d' :: rest) = _
        rw [scharsMembers]
        have hv := ih1 w ('\x7d' :: rest) hfw (isDelim_cons _ _ (by decide))
        have hsw1 : skipWs ('"' :: (escapeChars k.data ++ '"' :: ':' :: (schars w ++ '\x7d' :: rest)))
            = '"' :: (escapeChars k.data ++ '"' :: ':' :: (schars w ++ '\x7d' :: rest)) :=
          skipWs_not_ws _ (by decide)
        have hps : parseStringBody (escapeChars k.data ++ '"' :: ':' :: (schars w ++ '\x7d' :: rest))
            = some (k.data, ':' :: (schars w ++ '\x7d' :: rest)) :=
          parseStringBody_escapeChars _ _
        have hsw2 : skipWs (':' :: (schars w ++ '\x7d' :: rest))
            = ':' :: (schars w ++ '\x7d' :: rest) := skipWs_not_ws _ (by decide)
        have hsw3 : skipWs ('\x7d' :: rest) = '\x7d' :: rest := skipWs_not_ws _ (by decide)
        simp only [List.cons_append, List.append_assoc]
        simp only [parseObjItems, hsw1, hps, hsw2, hv, hsw3]
        simp only [show (('"' : Char) = '"') = True from by simp,
          show ((':' : Char) = ':') = True from by simp,
          show (('\x7d' : Char) = ',') = False from by simp,
          show (('\x7d' : Char) = '\x7d') = True from by simp, if_false, if_true]
      | cons k₂ w₂ t₂ =>
        show parseObjItems (fuel + 1)
            (scharsMembers (JsonMembers.cons k w (JsonMembers.cons k₂ w₂ t₂))
              ++ '\x7d' :: rest) = _
        rw [scharsMembers]
        have hv := ih1 w
          (',' :: (scharsMembers (JsonMembers.cons k₂ w₂ t₂) ++ '\x7d' :: rest)) hfw
          (isDelim_cons _ _ (by decide))
        have hps : parseStringBody (escapeChars k.data ++ '"' :: ':' ::
              (schars w ++ ',' :: (scharsMembers (JsonMembers.cons k₂ w₂ t₂) ++ '\x7d' :: rest)))
            = some (k.data, ':' :: (schars w ++ ',' ::
                (scharsMembers (JsonMembers.cons k₂ w₂ t₂) ++ '\x7d' :: rest))) :=
          parseStringBody_escapeChars _ _
        have hsw1 : ∀ l : List Char, skipWs ('"' :: l) = '"' :: l :=
          fun l => skipWs_not_ws _ (by decide)
        have hsw2 : ∀ l : List Char, skipWs (':' :: l) = ':' :: l :=
          fun l => skipWs_not_ws _ (by decide)
        have hsw3 : ∀ l : List Char, skipWs (',' :: l) = ',' :: l :=
          fun l => skipWs_not_ws _ (by decide)
        simp only [List.cons_append, List.append_assoc]
        simp only [parseObjItems, hsw1, hps, hsw2, hv, hsw3]
        simp only [show (('"' : Char) = '"') = True from by simp,
          show ((':' : Char) = ':') = True from by simp,
          show ((',' : Char) = ',') = True from by simp, if_true]
        rw [ih3 k₂ w₂ t₂ rest (by simp only [fvMembers] at hfv ⊢; omega)]
        rw [stringMk_data]
        rfl

mutual
theorem fvJson_le : ∀ v : Json, fvJson v ≤ (schars v).length
  | Json.null => by simp [fvJson, schars]
  | Json.bool b => by cases b <;> simp [fvJson, schars]
  | Json.num i => by
    obtain ⟨d, tl, hd, hnc⟩ := natChars_head i.natAbs
    simp only [fvJson, schars, intChars]
    split <;> simp [hnc]
  | Json.str s => by simp [fvJson, schars]
  | Json.arr l => by
    have h := fvItems_le l
    cases l with
    | nil => simp [fvJson, schars, scharsItems]
    | cons x t =>
      simp only [fvJson, schars]
      simp at h ⊢
      omega
  | Json.obj m => by
    have h := fvMembers_le m
    cases m with
    | nil => simp [fvJson, schars, scharsMembers]
    | cons k w t =>
      simp only [fvJson, schars]
      simp at h ⊢
      omega

theorem fvItems_le : ∀ t : JsonList, fvItems t ≤ (scharsItems t).length + 1
  | JsonList.nil => by simp [fvItems, scharsItems]
  | JsonList.cons x JsonList.nil => by
    have h := fvJson_le x
    simp [fvItems, scharsItems]
    omega
  | JsonList.cons x (JsonList.cons y t₂) => by
    have h1 := fvJson_le x
    have h2 := fvItems_le (JsonList.cons y t₂)
    simp [fvItems, scharsItems] at h2 ⊢
    omega

theorem fvMembers_le : ∀ t : JsonMembers, fvMembers t ≤ (scharsMembers t).length + 1
  | JsonMembers.nil => by simp [fvMembers, scharsMembers]
  | JsonMembers.cons k w JsonMembers.nil => by
    have h := fvJson_le w
    simp [fvMembers, scharsMembers]
    omega
  | JsonMembers.cons k w (JsonMembers.cons k₂ w₂ t₂) => by
    have h1 := fvJson_le w
    have h2 := fvMembers_le (JsonMembers.cons k₂ w₂ t₂)
    simp [fvMembers, scharsMembers] at h2 ⊢
    omega
end

/-- Serialize-then-parse is the identity on modelled JSON documents: the
model of `JSON.parse` applied to the model of `JSON.stringify`. -/
theorem json_roundtrip (v : Json) : Json.parse (Json.stringify v) = some v := by
  unfold Json.parse Json.stringify
  have hdata : (String.mk (schars v)).data = schars v := rfl
  rw [hdata]
  have hb := fvJson_le v
  have hmain := (roundtripAux ((schars v).length + 1)).1 v [] (by omega) (by decide)
  rw [List.append_nil] at hmain
  rw [hmain]
  simp [skipWs]

/-!
### The URL and query model

`Client.request` builds its URL with `new URL(prefixUrl + path)` and
`url.searchParams.append`, and serializes it with `url.toString()`.  The
model keeps the part of the URL before the query verbatim in `base` and the
query as an ordered list of decoded key/value pairs, which is how a WHATWG
`URL` object exposes `searchParams`.  `new URL` throws a `TypeError` when
its argument has no scheme; the model checks exactly that (further WHATWG
validity conditions, and normalization of the part before the query, are
not modelled — no claim depends on them).  Query serialization follows the
`application/x-www-form-urlencoded` serializer: listed safe characters kept,
space as `+`, every other character percent-encoded byte-wise from UTF-8.
Percent decoding is modelled at the byte level (multi-byte UTF-8 sequences
are not recombined into one character; no claim depends on that either).
-/

/-- Upper-case hexadecimal digit character for a value (`0`-`15`). -/
def hexDigitCharU : Nat → Char
  | 0 => '0' | 1 => '1' | 2 => '2' | 3 => '3' | 4 => '4'
  | 5 => '5' | 6 => '6' | 7 => '7' | 8 => '8' | 9 => '9'
  | 10 => 'A' | 11 => 'B' | 12 => 'C' | 13 => 'D' | 14 => 'E' | 15 => 'F'
  | _ => '0'

/-- UTF-8 bytes of a character, by the standard 1-4 byte formulas. -/
def utf8Bytes (c : Char) : List Nat :=
  let n := c.toNat
  if n < 0x80 then [n]
  else if n < 0x800 then [0xC0 + n / 64, 0x80 + n % 64]
  else if n < 0x10000 then [0xE0 + n / 4096, 0x80 + (n / 64) % 64, 0x80 + n % 64]
  else [0xF0 + n / 262144, 0x80 + (n / 4096) % 64, 0x80 + (n / 64) % 64, 0x80 + n % 64]

/-- `%XX` escape of one byte, upper-case hex. -/
def percentByte (b : Nat) : List Char :=
  ['%', hexDigitCharU (b / 16), hexDigitCharU (b % 16)]

/-- One character under the `application/x-www-form-urlencoded` serializer:
ASCII alphanumerics and `*`, `-`, `.`, `_` stand for themselves, space
becomes `+`, everything else is percent-encoded from its UTF-8 bytes. -/
def formEncodeChar (c : Char) : List Char :=
  if c = ' ' then ['+']
  else if c.isAlphanum then [c]
  else if c = '*' ∨ c = '-' ∨ c = '.' ∨ c = '_' then [c]
  else ((utf8Bytes c).map percentByte).flatten

/-- `formEncodeChar` over a character list. -/
def formEncodeChars : List Char → List Char
  | [] => []
  | c :: cs => formEncodeChar c ++ formEncodeChars cs

/-- The `application/x-www-form-urlencoded` serialization of a string. -/
def formEncode (s : String) : String :=
  String.mk (formEncodeChars s.data)

/-- Total percent-plus decoding used when an existing query string is read
into `searchParams`: `+` is a space, a valid `%XX` is the byte, a malformed
`%` stays literal (the form parser never throws). -/
def formDecodeChars : List Char → List Char
  | [] => []
  | '+' :: cs => ' ' :: formDecodeChars cs
  | '%' :: h₁ :: h₂ :: cs =>
    match hexValOf h₁, hexValOf h₂ with
    | some a, some b => Char.ofNat (a * 16 + b) :: formDecodeChars cs
    | _, _ => '%' :: formDecodeChars (h₁ :: h₂ :: cs)
  | c :: cs => c :: formDecodeChars cs

/-- Model of `decodeURIComponent`, which throws a `URIError` on a `%` that
is not followed by two hexadecimal digits (`none` models the throw). -/
def decodeURIChars : List Char → Option (List Char)
  | [] => some []
  | '%' :: rest =>
    match rest with
    | h₁ :: h₂ :: cs =>
      match hexValOf h₁, hexValOf h₂ with
      | some a, some b => (decodeURIChars cs).map (fun l => Char.ofNat (a * 16 + b) :: l)
      | _, _ => none
    | _ => none
  | c :: cs => (decodeURIChars cs).map (fun l => c :: l)

/-- Model of `decodeURIComponent` on strings. -/
def decodeURIComponentM (s : String) : Option String :=
  (decodeURIChars s.data).map String.mk

/-- Rest of a URL scheme: alphanumerics and `+`, `-`, `.` until a `:`. -/
def schemeRestOk : List Char → Bool
  | [] => false
  | c :: cs =>
    if c = ':' then true
    else if c.isAlphanum || c = '+' || c = '-' || c = '.' then schemeRestOk cs
    else false

/-- A URL string must start `ALPHA *(ALPHA / DIGIT / "+" / "-" / ".") ":"`;
`new URL` throws a `TypeError` otherwise. -/
def schemeOk : List Char → Bool
  | [] => false
  | c :: cs => c.isAlpha && schemeRestOk cs

/-- Split at the first `?`: the part before it, and the query when present. -/
def splitAtQm : List Char → List Char × Option (List Char)
  | [] => ([], none)
  | c :: cs =>
    if c = '?' then ([], some cs)
    else
      let p := splitAtQm cs
      (c :: p.1, p.2)

/-- Split a query string at every `&` into segments. -/
def splitSegs : List Char → List (List Char)
  | [] => [[]]
  | c :: cs =>
    if c = '&' then [] :: splitSegs cs
    else
      match splitSegs cs with
      | [] => [[c]]
      | s :: ss => (c :: s) :: ss

/-- Split a segment at its first `=` (no `=`: the value part is empty). -/
def splitEq : List Char → List Char × List Char
  | [] => ([], [])
  | c :: cs =>
    if c = '=' then ([], cs)
    else
      let p := splitEq cs
      (c :: p.1, p.2)

/-- One query segment as a decoded key/value pair; empty segments dropped. -/
def segToPair (seg : List Char) : Option (String × String) :=
  match seg with
  | [] => none
  | _ =>
    let p := splitEq seg
    some (String.mk (formDecodeChars p.1), String.mk (formDecodeChars p.2))

/-- Parse an existing query string into ordered key/value pairs. -/
def parseQueryChars (q : List Char) : List (String × String) :=
  (splitSegs q).filterMap segToPair

/-- The URL state `Client.request` manipulates: the serialization of
everything before the query, and the ordered `searchParams` list. -/
structure URLModel where
  base : String
  searchParams : List (String × String)
deriving DecidableEq

/-- Model of `new URL(s)`: `none` models the thrown `TypeError`. -/
def urlFromString (s : String) : Option URLModel :=
  if schemeOk s.data then
    let p := splitAtQm s.data
    some (URLModel.mk (String.mk p.1)
      (match p.2 with
       | none => []
       | some q => parseQueryChars q))
  else none

/-- Model of `url.searchParams.append(k, v)`. -/
def urlAppendParam (u : URLModel) (k v : String) : URLModel :=
  URLModel.mk u.base (u.searchParams ++ [(k, v)])

/-- Model of `url.toString()`: the base, then the form-encoded query. -/
def urlToString (u : URLModel) : String :=
  match u.searchParams with
  | [] => u.base
  | _ => u.base ++ "?" ++ String.intercalate "&"
      (u.searchParams.map (fun e => formEncode e.1 ++ "=" ++ formEncode e.2))

/-!
### The query argument, the client configuration and the request builder
-/

/-- A query value as allowed by `QueryParams`
(`Record<string, string | number | string[]>`); `undef` covers an entry
whose value is `undefined` at runtime, which the loop skips. -/
inductive QueryValue where
  | str (v : String)
  | num (v : Int)
  | arr (vs : List String)
  | undef
deriving DecidableEq

/-- The declared `QueryParams` type: a plain record, or a `URLSearchParams`
instance (modelled by its entry list). -/
inductive QueryParams where
  | record (entries : List (String × QueryValue))
  | searchParams (entries : List (String × String))
deriving DecidableEq

/-- Model of `Object.entries(query)`.  On a plain record these are its own
enumerable string-keyed properties in insertion order.  A `URLSearchParams`
instance keeps its entries in internal state, not as own enumerable
properties, so `Object.entries` on it yields the empty list. -/
def objectEntries : QueryParams → List (String × QueryValue)
  | QueryParams.record es => es
  | QueryParams.searchParams _ => []

/-- `String(value)` for a number value (numbers are modelled as integers). -/
def jsStringOfNum (i : Int) : String :=
  String.mk (intChars i)

/-- The `searchParams` entries contributed by one query entry
(`Client.request` lines 57-67): an `undefined` value is skipped; an array
appends one entry per element, each passed through `decodeURIComponent`
(whose `URIError`, modelled by `none`, aborts the whole build); any other
value is appended via `String(value)`. -/
def expandQueryEntry (k : String) : QueryValue → Option (List (String × String))
  | QueryValue.undef => some []
  | QueryValue.arr vs =>
    (vs.mapM decodeURIComponentM).map (fun ds => ds.map (fun d => (k, d)))
  | QueryValue.str v => some [(k, v)]
  | QueryValue.num i => some [(k, jsStringOfNum i)]

/-- The whole query loop: append the expansion of every entry, in order,
after any `searchParams` the base URL already had. -/
def appendQuery (u : URLModel) : Option QueryParams → Option URLModel
  | none => some u
  | some q =>
    ((objectEntries q).mapM (fun e => expandQueryEntry e.1 e.2)).map
      (fun ls => URLModel.mk u.base (u.searchParams ++ ls.flatten))

/-- The HTTP methods of the `Method` type. -/
inductive Method where
  | get | post | patch | delete
deriving DecidableEq

/-- `method.toUpperCase()` on the four allowed methods. -/
def methodUpper : Method → String
  | Method.get => "GET"
  | Method.post => "POST"
  | Method.patch => "PATCH"
  | Method.delete => "DELETE"

/-- The `RequestParameters` of one call.  The body is a string-keyed
mapping of JSON-serializable values (`Record<string, unknown>`), modelled
by `JsonMembers`; `auth` is the optional per-call credential pair, declared
but not read by `Client.request`. -/
structure RequestParameters where
  path : String
  method : Method
  query : Option QueryParams
  body : Option JsonMembers
  auth : Option (String × String)
deriving DecidableEq

/-- The recognized constructor `Options` (the transport and agent overrides
are opaque collaborators and carry no data the pipeline reads). -/
structure ClientOptions where
  auth : Option (List (String × String))
  timeoutMs : Option Nat
  baseUrl : Option String
deriving DecidableEq

/-- The immutable per-client state set in the `Client` constructor. -/
structure ClientConfig where
  auth : List (String × String)
  prefixUrl : String
  timeoutMs : Nat
  userAgent : String
deriving DecidableEq

/-- The `Client` constructor: `baseUrl ?? ""`, `timeoutMs ?? 60_000`,
`auth` kept as given, and the derived user-agent string. -/
def clientOfOptions (packageVersion : String) (o : ClientOptions) : ClientConfig :=
  ClientConfig.mk (o.auth.getD []) (o.baseUrl.getD "") (o.timeoutMs.getD 60000)
    ("anteraja-client/" ++ packageVersion)

/-- JavaScript object property assignment on a string-keyed object modelled
as an ordered entry list: an existing key keeps its position and gets the
new value, a new key is appended. -/
def jsObjectSet : List (String × String) → String → String → List (String × String)
  | [], k, v => [(k, v)]
  | (k₀, v₀) :: t, k, v =>
    if k₀ = k then (k₀, v) :: t else (k₀, v₀) :: jsObjectSet t k v

/-- What `Client.request` hands to the transport: the assembled URL, the
upper-cased method, the headers object and the optional serialized body. -/
structure WireRequest where
  url : URLModel
  method : String
  headers : List (String × String)
  body : Option String
deriving DecidableEq

/-- `bodyAsJsonString` (`Client.request` lines 49-52): no body, or a body
with no entries, serializes to nothing; otherwise `JSON.stringify`. -/
def bodyAsJsonString : Option JsonMembers → Option String
  | none => none
  | some JsonMembers.nil => none
  | some m => some (Json.stringify (Json.obj m))

/-- `new URL` failure (a `TypeError`) or `decodeURIComponent` failure
(a `URIError`) inside the request builder. -/
inductive JsError where
  | urlTypeError
  | uriError
deriving DecidableEq

/-- The Request Builder step of `Client.request` (lines 49-77): serialize
the body, build `new URL(prefixUrl + path)`, run the query loop, and build
the headers object `{...auth, "user-agent": ua}` plus `content-type:
application/json` exactly when a body string exists. -/
def buildWireRequest (cfg : ClientConfig) (p : RequestParameters) :
    Except JsError WireRequest :=
  let bjs := bodyAsJsonString p.body
  match urlFromString (cfg.prefixUrl ++ p.path) with
  | none => Except.error JsError.urlTypeError
  | some url₀ =>
    match appendQuery url₀ p.query with
    | none => Except.error JsError.uriError
    | some url =>
      let headers₀ := jsObjectSet cfg.auth "user-agent" cfg.userAgent
      let headers :=
        match bjs with
        | none => headers₀
        | some _ => jsObjectSet headers₀ "content-type" "application/json"
      Except.ok (WireRequest.mk url (methodUpper p.method) headers bjs)

/-!
### The transport collaborator, the timeout race and the response classifier

The transport is a pluggable `fetch`-like function.  For one call its
behaviour is a settle time (in milliseconds from issuance; `none` for a
promise that never settles) together with the fulfilled response or the
rejection value.  `rejectAfterTimeout` (errors.ts lines 208-223) starts a
timer for `timeoutMS`; whichever of the transport promise and the timer
settles the race's promise first wins, and the `.then(... clearTimeout)`
chain cancels the timer when the transport settles.  Discrete-time model:
the transport wins exactly when its settle time is strictly below
`timeoutMS`; otherwise the timer has already fired and the race is settled
with a `RequestTimeoutError`, the transport's own later settlement being
ignored by the already-settled promise.
-/

instance {α β : Type} [DecidableEq α] [DecidableEq β] : DecidableEq (Except α β) :=
  fun x y =>
    match x, y with
    | Except.ok a, Except.ok b =>
      if h : a = b then isTrue (by rw [h]) else isFalse (by simp [h])
    | Except.error a, Except.error b =>
      if h : a = b then isTrue (by rw [h]) else isFalse (by simp [h])
    | Except.ok _, Except.error _ => isFalse (by simp)
    | Except.error _, Except.ok _ => isFalse (by simp)

/-- What the transport exposes of a response: `ok`, `status`, `headers`,
and the result of the asynchronous `text()` read (which may itself
reject with some opaque error of type `ε`). -/
structure SupportedResponse (ε : Type) where
  ok : Bool
  status : Nat
  headers : List (String × String)
  textResult : Except ε String
deriving DecidableEq

/-- One call's transport behaviour: when the promise settles (if ever) and
with what outcome (`Except.error` is a rejection with an opaque value). -/
structure TransportBehavior (ε : Type) where
  settleTime : Option Nat
  outcome : Except ε (SupportedResponse ε)
deriving DecidableEq

/-- Outcome of racing the transport promise against the timeout timer. -/
inductive RaceOutcome (ε : Type) where
  | timedOut
  | transportErr (e : ε)
  | response (r : SupportedResponse ε)
deriving DecidableEq

/-- Model of `RequestTimeoutError.rejectAfterTimeout`. -/
def rejectAfterTimeout {ε : Type} (tb : TransportBehavior ε) (timeoutMS : Nat) :
    RaceOutcome ε :=
  match tb.settleTime with
  | none => RaceOutcome.timedOut
  | some t =>
    if t < timeoutMS then
      match tb.outcome with
      | Except.ok r => RaceOutcome.response r
      | Except.error e => RaceOutcome.transportErr e
    else RaceOutcome.timedOut

/-- Whether the `setTimeout` timer fires before `clearTimeout` reaches it:
it does unless the transport settles strictly before `timeoutMS`. -/
def raceTimerFires {ε : Type} (tb : TransportBehavior ε) (timeoutMS : Nat) : Bool :=
  match tb.settleTime with
  | none => true
  | some t => decide (timeoutMS ≤ t)

/-- Everything `Client.request` can throw, plus the opaque errors of type
`ε` it re-throws unchanged.  `timeout` is `RequestTimeoutError`; `api` is
`APIResponseError` (code, message, status, headers, raw body — the `code`
field is the runtime string the unsound `isAPIErrorCode` type guard let
through); `unknownHTTP` is `UnknownHTTPResponseError` (its discriminant
code is the fixed `ClientErrorCode.ResponseError`, i.e. `response_error`);
`successBodyParse` is the `SyntaxError` of `JSON.parse` on a successful
body; `textRead` and `transport` are the pass-through rejections of
`response.text()` and of the transport itself; `urlTypeError` and
`uriError` are the platform exceptions of `new URL` and
`decodeURIComponent` inside the builder. -/
inductive RequestError (ε : Type) where
  | timeout
  | api (code : String) (message : String) (status : Nat)
      (headers : List (String × String)) (body : String)
  | unknownHTTP (status : Nat) (message : String)
      (headers : List (String × String)) (body : String)
  | successBodyParse (raw : String)
  | textRead (e : ε)
  | transport (e : ε)
  | urlTypeError
  | uriError
deriving DecidableEq

/-- The eleven members of the `APIErrorCode` enum, as their string values. -/
def apiErrorCodeStrings : List String :=
  ["unauthorized", "restricted_resource", "object_not_found", "rate_limited",
   "invalid_json", "invalid_request_url", "invalid_request", "validation_error",
   "conflict_error", "internal_server_error", "service_unavailable"]

/-- The property names every plain object inherits from `Object.prototype`;
the JavaScript `in` operator finds these on any object literal. -/
def objectPrototypeProps : List String :=
  ["constructor", "hasOwnProperty", "isPrototypeOf", "propertyIsEnumerable",
   "toLocaleString", "toString", "valueOf", "__defineGetter__", "__defineSetter__",
   "__lookupGetter__", "__lookupSetter__", "__proto__"]

/-- JavaScript property read on a parsed JSON object: with a duplicated
key, the assignments run in textual order, so the last one wins. -/
def getField : JsonMembers → String → Option Json
  | JsonMembers.nil, _ => none
  | JsonMembers.cons k v t, key =>
    match getField t key with
    | some r => some r
    | none => if k = key then some v else none

/-- Modelled from the spec: `isObject` (imported from `src/utils/utils`,
which is not among the provided sources) — §4.4 requires the parsed value
to be a plain key-value mapping. -/
def isObject : Json → Bool
  | Json.obj _ => true
  | _ => false

/-- Model of `isAPIErrorCode` (errors.ts lines 196-198):
`typeof code === "string" && code in apiErrorCodes`.  The `in` operator
walks the prototype chain, so beside the eleven enum values it also
answers `true` for the inherited property names of `Object.prototype`. -/
def isAPIErrorCode : Option Json → Bool
  | some (Json.str s) => apiErrorCodeStrings.contains s || objectPrototypeProps.contains s
  | _ => false

/-- Model of `parseAPIErrorResponseBody` (errors.ts lines 167-194): swallow
a `JSON.parse` failure; require a plain mapping with a string `message` and
a `code` accepted by `isAPIErrorCode`; return the code and message (the
extra fields the spread keeps are not part of the claims).  The input is a
string by its type, so the `typeof body !== "string"` guard is vacuous. -/
def parseAPIErrorResponseBody (body : String) : Option (String × String) :=
  match Json.parse body with
  | none => none
  | some parsed =>
    match parsed with
    | Json.obj members =>
      match getField members "message", getField members "code" with
      | some (Json.str message), some codeJson =>
        if isAPIErrorCode (some codeJson) then
          match codeJson with
          | Json.str code => some (code, message)
          | _ => none
        else none
      | _, _ => none
    | _ => none

/-- The `UnknownHTTPResponseError` constructor's message defaulting:
`args.message ?? "Request failed with status: <status>"`. -/
def unknownHTTPMessage (status : Nat) (message : Option String) : String :=
  message.getD ("Request failed with status: " ++ Nat.repr status)

/-- Model of `buildRequestError` (errors.ts lines 144-165): a structured
match becomes an `APIResponseError` carrying the parsed code and message
and the response's status, headers and raw body; otherwise an
`UnknownHTTPResponseError` built with `message: undefined`. -/
def buildRequestErrorModel {ε : Type} (resp : SupportedResponse ε) (bodyText : String) :
    RequestError ε :=
  match parseAPIErrorResponseBody bodyText with
  | some cm => RequestError.api cm.1 cm.2 resp.status resp.headers bodyText
  | none =>
    RequestError.unknownHTTP resp.status (unknownHTTPMessage resp.status none)
      resp.headers bodyText

/-- Model of `Client.request` (lines 43-105): build the wire request
(`new URL` and `decodeURIComponent` exceptions propagate), race the
transport against the timeout, read the body text (its rejection
propagates), then classify: a non-`ok` response throws
`buildRequestError`, an `ok` response is `JSON.parse`d (a `SyntaxError`
propagates).  The `catch` block (lines 98-104) re-throws every error
unchanged whether or not it `isClientError`, so no wrapping happens
there. -/
def requestOutcome {ε : Type} (cfg : ClientConfig) (p : RequestParameters)
    (tb : TransportBehavior ε) : Except (RequestError ε) Json :=
  match buildWireRequest cfg p with
  | Except.error JsError.urlTypeError => Except.error RequestError.urlTypeError
  | Except.error JsError.uriError => Except.error RequestError.uriError
  | Except.ok _ =>
    match rejectAfterTimeout tb cfg.timeoutMs with
    | RaceOutcome.timedOut => Except.error RequestError.timeout
    | RaceOutcome.transportErr e => Except.error (RequestError.transport e)
    | RaceOutcome.response resp =>
      match resp.textResult with
      | Except.error e => Except.error (RequestError.textRead e)
      | Except.ok responseText =>
        if resp.ok then
          match Json.parse responseText with
          | none => Except.error (RequestError.successBodyParse responseText)
          | some j => Except.ok j
        else Except.error (buildRequestErrorModel resp responseText)

theorem jsObjectSet_lookup (l : List (String × String)) (k v : String) :
    List.lookup k (jsObjectSet l k v) = some v := by
  induction l with
  | nil => simp [jsObjectSet, List.lookup]
  | cons hd t ih =>
    obtain ⟨k₀, v₀⟩ := hd
    by_cases h : k₀ = k
    · subst h
      simp [jsObjectSet, List.lookup]
    · have hbf : (k == k₀) = false := beq_eq_false_iff_ne.mpr (Ne.symm h)
      simp [jsObjectSet, h, List.lookup, hbf, ih]

theorem jsObjectSet_filter_ne (l : List (String × String)) (k v k' : String) (h : k ≠ k') :
    (jsObjectSet l k v).filter (fun e => e.1 == k')
      = l.filter (fun e => e.1 == k') := by
  have hbf : (k == k') = false := beq_eq_false_iff_ne.mpr h
  induction l with
  | nil => simp [jsObjectSet, List.filter, hbf]
  | cons hd t ih =>
    obtain ⟨k₀, v₀⟩ := hd
    by_cases h₀ : k₀ = k
    · subst h₀
      simp [jsObjectSet, List.filter, hbf]
    · simp only [jsObjectSet, if_neg h₀, List.filter, ih]

theorem mapM_length {α β : Type} (f : α → Option β) :
    ∀ (xs : List α) (ys : List β), xs.mapM f = some ys → ys.length = xs.length := by
  intro xs
  induction xs with
  | nil =>
    intro ys h
    simp only [List.mapM_nil, Option.pure_def, Option.some.injEq] at h
    simp [← h]
  | cons x t ih =>
    intro ys h
    simp only [List.mapM_cons, Option.bind_eq_bind, Option.pure_def] at h
    cases hx : f x with
    | none => rw [hx] at h; simp at h
    | some b =>
      rw [hx] at h
      cases ht : t.mapM f with
      | none => rw [ht] at h; simp at h
      | some bs =>
        rw [ht] at h
        simp only [Option.some_bind, Option.some.injEq] at h
        simp [← h, ih bs ht]

theorem expandQueryEntry_keys (k : String) (qv : QueryValue) (l : List (String × String))
    (h : expandQueryEntry k qv = some l) : ∀ e ∈ l, e.1 = k := by
  cases qv with
  | undef =>
    simp only [expandQueryEntry, Option.some.injEq] at h
    simp [← h]
  | str v =>
    simp only [expandQueryEntry, Option.some.injEq] at h
    simp [← h]
  | num i =>
    simp only [expandQueryEntry, Option.some.injEq] at h
    simp [← h]
  | arr vs =>
    simp only [expandQueryEntry] at h
    cases hd : vs.mapM decodeURIComponentM with
    | none => rw [hd] at h; simp at h
    | some ds =>
      rw [hd] at h
      simp only [Option.map] at h
      simp only [Option.some.injEq] at h
      intro e he
      rw [← h] at he
      simp only [List.mem_map] at he
      obtain ⟨d, -, hde⟩ := he
      rw [← hde]

theorem expansion_filter_key (k : String) :
    ∀ (entries : List (String × QueryValue)) (ls : List (List (String × String))),
    entries.mapM (fun e => expandQueryEntry e.1 e.2) = some ls →
    ∃ ls', (entries.filter (fun e => e.1 == k)).mapM (fun e => expandQueryEntry e.1 e.2)
        = some ls'
      ∧ ls.flatten.filter (fun e => e.1 == k) = ls'.flatten := by
  intro entries
  induction entries with
  | nil =>
    intro ls h
    simp only [List.mapM_nil, Option.pure_def, Option.some.injEq] at h
    exact ⟨[], rfl, by simp [← h]⟩
  | cons e₀ t ih =>
    intro ls h
    obtain ⟨k₀, v₀⟩ := e₀
    simp only [List.mapM_cons, Option.bind_eq_bind, Option.pure_def] at h
    cases hx : expandQueryEntry k₀ v₀ with
    | none => rw [hx] at h; simp at h
    | some l₀ =>
      rw [hx] at h
      cases ht : t.mapM (fun e => expandQueryEntry e.1 e.2) with
      | none => rw [ht] at h; simp at h
      | some ts =>
        rw [ht] at h
        simp only [Option.some_bind, Option.some.injEq] at h
        obtain ⟨ls', hmap, hfilt⟩ := ih ts ht
        have hkeys := expandQueryEntry_keys k₀ v₀ l₀ hx
        by_cases hk : k₀ = k
        · subst hk
          refine ⟨l₀ :: ls', ?_, ?_⟩
          · simp only [List.filter_cons, beq_self_eq_true, if_true]
            simp only [List.mapM_cons, Option.bind_eq_bind, Option.pure_def, hx,
              Option.some_bind, hmap]
          · rw [← h]
            simp only [List.flatten_cons, List.filter_append, hfilt]
            have hl₀ : l₀.filter (fun e => e.1 == k₀) = l₀ :=
              List.filter_eq_self.mpr (fun a ha => by simp [hkeys a ha])
            rw [hl₀]
        · refine ⟨ls', ?_, ?_⟩
          · have hbf : (k₀ == k) = false := beq_eq_false_iff_ne.mpr hk
            simp only [List.filter_cons, hbf, Bool.false_eq_true, if_false, hmap]
          · rw [← h]
            simp only [List.flatten_cons, List.filter_append, hfilt]
            have hl₀ : l₀.filter (fun e => e.1 == k) = [] := by
              rw [List.filter_eq_nil_iff]
              intro a ha
              simp [hkeys a ha, hk]
            simp [hl₀]

theorem buildWireRequest_urlErr (cfg : ClientConfig) (p : RequestParameters)
    (hu : urlFromString (cfg.prefixUrl ++ p.path) = none) :
    buildWireRequest cfg p = Except.error JsError.urlTypeError := by
  simp only [buildWireRequest, hu]

theorem buildWireRequest_uriErr (cfg : ClientConfig) (p : RequestParameters) (u₀ : URLModel)
    (hu : urlFromString (cfg.prefixUrl ++ p.path) = some u₀)
    (ha : appendQuery u₀ p.query = none) :
    buildWireRequest cfg p = Except.error JsError.uriError := by
  simp only [buildWireRequest, hu, ha]

theorem buildWireRequest_ok (cfg : ClientConfig) (p : RequestParameters)
    (u₀ url : URLModel)
    (hu : urlFromString (cfg.prefixUrl ++ p.path) = some u₀)
    (ha : appendQuery u₀ p.query = some url) :
    buildWireRequest cfg p = Except.ok (WireRequest.mk url (methodUpper p.method)
      (match bodyAsJsonString p.body with
       | none => jsObjectSet cfg.auth "user-agent" cfg.userAgent
       | some _ => jsObjectSet (jsObjectSet cfg.auth "user-agent" cfg.userAgent)
           "content-type" "application/json")
      (bodyAsJsonString p.body)) := by
  simp only [buildWireRequest, hu, ha]
  try rfl

/-- `true` when the Request Builder succeeds for this call. -/
def buildOk (cfg : ClientConfig) (p : RequestParameters) : Bool :=
  match buildWireRequest cfg p with
  | Except.ok _ => true
  | Except.error _ => false

/-- The transport promise settles strictly before the timeout timer. -/
def settlesWithin {ε : Type} (tb : TransportBehavior ε) (ms : Nat) : Prop :=
  ∃ t, tb.settleTime = some t ∧ t < ms

/-- C9: two calls with the same request descriptor and client
configuration against a transport that behaves the same way both times
produce structurally identical outcomes — the pipeline keeps no state
between calls. -/
theorem claimC9 {ε : Type} (cfg : ClientConfig) (p : RequestParameters)
    (tb₁ tb₂ : TransportBehavior ε)
    (h₁ : tb₁.settleTime = tb₂.settleTime) (h₂ : tb₁.outcome = tb₂.outcome) :
    requestOutcome cfg p tb₁ = requestOutcome cfg p tb₂ := by
  have : tb₁ = tb₂ := by cases tb₁; cases tb₂; simp_all
  rw [this]

/-- C10: a query passed as a `URLSearchParams` instance — an allowed
alternative of the declared `QueryParams` type — contributes nothing: the
built wire request, its URL included, is identical to the one built with no
query at all, because `Object.entries` enumerates no own enumerable
properties on a `URLSearchParams` instance. -/
theorem claimC10 (cfg : ClientConfig) (path : String) (m : Method)
    (es : List (String × String)) (body : Option JsonMembers)
    (auth : Option (String × String)) :
    buildWireRequest cfg
        (RequestParameters.mk path m (some (QueryParams.searchParams es)) body auth)
      = buildWireRequest cfg (RequestParameters.mk path m none body auth) := by
  simp only [buildWireRequest]
  cases hu : urlFromString (cfg.prefixUrl ++ path) with
  | none => rfl
  | some u₀ =>
    have h1 : appendQuery u₀ (some (QueryParams.searchParams es)) = some u₀ := by
      simp only [appendQuery, objectEntries, List.mapM_nil, Option.pure_def, Option.map_some]
      cases u₀
      simp
    have h2 : appendQuery u₀ none = some u₀ := rfl
    simp only [h1, h2]

/-- C2: a call whose transport promise does not settle within the
configured `timeoutMs` rejects with `RequestTimeoutError` and with no other
error kind, whatever the transport eventually does; when the transport
settles (fulfilled or rejected) strictly before the timer fires, the race
returns or throws the transport's own outcome and the timer is cancelled
before it can fire; the default timeout is 60000 ms. -/
theorem claimC2 {ε : Type} (cfg : ClientConfig) (p : RequestParameters)
    (tb : TransportBehavior ε) :
    (¬ settlesWithin tb cfg.timeoutMs → buildOk cfg p = true →
      requestOutcome cfg p tb = Except.error RequestError.timeout)
    ∧ (∀ t, tb.settleTime = some t → t < cfg.timeoutMs →
        (∀ r, tb.outcome = Except.ok r →
          rejectAfterTimeout tb cfg.timeoutMs = RaceOutcome.response r)
        ∧ (∀ e, tb.outcome = Except.error e →
          rejectAfterTimeout tb cfg.timeoutMs = RaceOutcome.transportErr e)
        ∧ raceTimerFires tb cfg.timeoutMs = false)
    ∧ (∀ (version : String) (a : Option (List (String × String))) (b : Option String),
        (clientOfOptions version (ClientOptions.mk a none b)).timeoutMs = 60000) := by
  refine ⟨?_, ?_, ?_⟩
  · intro hns hb
    have hrace : rejectAfterTimeout tb cfg.timeoutMs = RaceOutcome.timedOut := by
      cases hst : tb.settleTime with
      | none => simp only [rejectAfterTimeout, hst]
      | some t =>
        simp only [rejectAfterTimeout, hst]
        rw [if_neg]
        intro hlt
        exact hns ⟨t, hst, hlt⟩
    unfold buildOk at hb
    cases hw : buildWireRequest cfg p with
    | error e => rw [hw] at hb; simp at hb
    | ok w => simp only [requestOutcome, hw, hrace]
  · intro t hst hlt
    refine ⟨?_, ?_, ?_⟩
    · intro r hr
      simp only [rejectAfterTimeout, hst, if_pos hlt, hr]
    · intro e he
      simp only [rejectAfterTimeout, hst, if_pos hlt, he]
    · simp only [raceTimerFires, hst, decide_eq_false_iff_not]
      omega
  · intro version a b
    rfl

/-- C1: for every transport response judged non-successful (the transport's
own ok indicator false, the spec's reading of non-2xx) whose body text
parses to a plain mapping with a string `message` and a `code` among the
eleven enumerated API error codes, a call whose builder succeeded and whose
transport settled before the timeout rejects with an `APIResponseError`
whose code and message equal the parsed pair and whose status, headers and
raw body text equal the response's. -/
theorem claimC1 {ε : Type} (cfg : ClientConfig) (p : RequestParameters)
    (tb : TransportBehavior ε) (resp : SupportedResponse ε) (t : Nat)
    (bodyText code message : String)
    (hbuild : buildOk cfg p = true)
    (ht : tb.settleTime = some t) (htlt : t < cfg.timeoutMs)
    (hout : tb.outcome = Except.ok resp) (hok : resp.ok = false)
    (htext : resp.textResult = Except.ok bodyText)
    (hparse : parseAPIErrorResponseBody bodyText = some (code, message))
    (hcode : code ∈ apiErrorCodeStrings) :
    requestOutcome cfg p tb
      = Except.error (RequestError.api code message resp.status resp.headers bodyText) := by
  unfold buildOk at hbuild
  cases hw : buildWireRequest cfg p with
  | error e => rw [hw] at hbuild; simp at hbuild
  | ok w =>
    simp only [requestOutcome, hw, rejectAfterTimeout, ht, hout, if_pos htlt, htext, hok,
      Bool.false_eq_true, if_false, buildRequestErrorModel, hparse]

/-- C3: for every non-successful transport response whose body text yields
no structured-error match, the call rejects with an
`UnknownHTTPResponseError` (the `unknownHTTP` case, whose discriminant code
is the fixed `response_error`) carrying the response's status, headers and
raw body text and the synthesized message
`Request failed with status: <status>` for the actual numeric status. -/
theorem claimC3 {ε : Type} (cfg : ClientConfig) (p : RequestParameters)
    (tb : TransportBehavior ε) (resp : SupportedResponse ε) (t : Nat) (bodyText : String)
    (hbuild : buildOk cfg p = true)
    (ht : tb.settleTime = some t) (htlt : t < cfg.timeoutMs)
    (hout : tb.outcome = Except.ok resp) (hok : resp.ok = false)
    (htext : resp.textResult = Except.ok bodyText)
    (hparse : parseAPIErrorResponseBody bodyText = none) :
    requestOutcome cfg p tb
      = Except.error (RequestError.unknownHTTP resp.status
          ("Request failed with status: " ++ Nat.repr resp.status) resp.headers bodyText) := by
  unfold buildOk at hbuild
  cases hw : buildWireRequest cfg p with
  | error e => rw [hw] at hbuild; simp at hbuild
  | ok w =>
    simp only [requestOutcome, hw, rejectAfterTimeout, ht, hout, if_pos htlt, htext, hok,
      Bool.false_eq_true, if_false, buildRequestErrorModel, hparse, unknownHTTPMessage,
      Option.getD]

/-- C6 (amended): the Request Builder is a pure transformation; beyond
body-serialization failure (which cannot occur for the JSON-value bodies of
the model), it fails exactly by propagating, un-wrapped, the `TypeError` of
`new URL` when the concatenated base URL and path is not a parseable URL,
or the `URIError` of `decodeURIComponent` when an array query value holds a
malformed percent-escape. -/
theorem claimC6_amended (cfg : ClientConfig) (p : RequestParameters) (e : JsError)
    (h : buildWireRequest cfg p = Except.error e) :
    (e = JsError.urlTypeError ∧ urlFromString (cfg.prefixUrl ++ p.path) = none)
    ∨ (e = JsError.uriError ∧ ∃ u₀, urlFromString (cfg.prefixUrl ++ p.path) = some u₀
        ∧ appendQuery u₀ p.query = none) := by
  cases hu : urlFromString (cfg.prefixUrl ++ p.path) with
  | none =>
    rw [buildWireRequest_urlErr cfg p hu] at h
    injection h with h
    exact Or.inl ⟨h.symm, rfl⟩
  | some u₀ =>
    cases ha : appendQuery u₀ p.query with
    | none =>
      rw [buildWireRequest_uriErr cfg p u₀ hu ha] at h
      injection h with h
      exact Or.inr ⟨h.symm, u₀, rfl, ha⟩
    | some url =>
      rw [buildWireRequest_ok cfg p u₀ url hu ha] at h
      exact absurd h (by simp)

theorem rejectAfterTimeout_transportErr_inv {ε : Type} (tb : TransportBehavior ε)
    (ms : Nat) (e₀ : ε)
    (h : rejectAfterTimeout tb ms = RaceOutcome.transportErr e₀) :
    tb.outcome = Except.error e₀ := by
  unfold rejectAfterTimeout at h
  split at h
  · simp at h
  · split at h
    · split at h
      · simp at h
      · rename_i heq
        injection h with h
        rw [heq, h]
    · simp at h

theorem rejectAfterTimeout_response_inv {ε : Type} (tb : TransportBehavior ε)
    (ms : Nat) (r : SupportedResponse ε)
    (h : rejectAfterTimeout tb ms = RaceOutcome.response r) :
    tb.outcome = Except.ok r := by
  unfold rejectAfterTimeout at h
  split at h
  · simp at h
  · split at h
    · split at h
      · rename_i heq
        injection h with h
        rw [heq, h]
      · simp at h
    · simp at h

/-- The set of thrown values claim C5 allows, following the claim's words:
the closed taxonomy plus errors propagated from body serialization (never
failing on a JSON-value body in this model), from the text-read step, from
JSON-parsing of a successful body, or from the transport. -/
def claimC5Allowed {ε : Type} : RequestError ε → Prop
  | RequestError.timeout => True
  | RequestError.api _ _ _ _ _ => True
  | RequestError.unknownHTTP _ _ _ _ => True
  | RequestError.successBodyParse _ => True
  | RequestError.textRead _ => True
  | RequestError.transport _ => True
  | RequestError.urlTypeError => False
  | RequestError.uriError => False

/-- C5 (amended): every rejection of the request operation is a member of
the closed taxonomy (`RequestTimeoutError`, `APIResponseError`,
`UnknownHTTPResponseError`), or an error propagated unmodified from the
text-read step, from JSON-parsing of a successful (ok) body, or from the
transport itself — or, beyond the original claim, the `TypeError` of
`new URL` on an invalid base+path or the `URIError` of
`decodeURIComponent` on a malformed array query value, both also
propagated unmodified; each pass-through case is traced to its origin. -/
theorem claimC5_amended {ε : Type} (cfg : ClientConfig) (p : RequestParameters)
    (tb : TransportBehavior ε) (e : RequestError ε)
    (h : requestOutcome cfg p tb = Except.error e) :
    e = RequestError.timeout
    ∨ (∃ code message status headers body,
        e = RequestError.api code message status headers body)
    ∨ (∃ status message headers body,
        e = RequestError.unknownHTTP status message headers body)
    ∨ (∃ raw, e = RequestError.successBodyParse raw ∧ Json.parse raw = none)
    ∨ (∃ e₀ resp, e = RequestError.textRead e₀ ∧ tb.outcome = Except.ok resp
        ∧ resp.textResult = Except.error e₀)
    ∨ (∃ e₀, e = RequestError.transport e₀ ∧ tb.outcome = Except.error e₀)
    ∨ (e = RequestError.urlTypeError ∧ urlFromString (cfg.prefixUrl ++ p.path) = none)
    ∨ (e = RequestError.uriError ∧ ∃ u₀, urlFromString (cfg.prefixUrl ++ p.path) = some u₀
        ∧ appendQuery u₀ p.query = none) := by
  unfold requestOutcome at h
  split at h
  · rename_i heq
    injection h with h
    refine Or.inr (Or.inr (Or.inr (Or.inr (Or.inr (Or.inr (Or.inl ⟨h.symm, ?_⟩))))))
    cases hu : urlFromString (cfg.prefixUrl ++ p.path) with
    | none => rfl
    | some u₀ =>
      cases ha : appendQuery u₀ p.query with
      | none => rw [buildWireRequest_uriErr cfg p u₀ hu ha] at heq; simp at heq
      | some url => rw [buildWireRequest_ok cfg p u₀ url hu ha] at heq; simp at heq
  · rename_i heq
    injection h with h
    refine Or.inr (Or.inr (Or.inr (Or.inr (Or.inr (Or.inr (Or.inr ⟨h.symm, ?_⟩))))))
    cases hu : urlFromString (cfg.prefixUrl ++ p.path) with
    | none => rw [buildWireRequest_urlErr cfg p hu] at heq; simp at heq
    | some u₀ =>
      refine ⟨u₀, rfl, ?_⟩
      cases ha : appendQuery u₀ p.query with
      | none => rfl
      | some url => rw [buildWireRequest_ok cfg p u₀ url hu ha] at heq; simp at heq
  · split at h
    · injection h with h
      exact Or.inl h.symm
    · rename_i e₀ heq
      injection h with h
      exact Or.inr (Or.inr (Or.inr (Or.inr (Or.inr (Or.inl
        ⟨e₀, h.symm, rejectAfterTimeout_transportErr_inv tb cfg.timeoutMs e₀ heq⟩)))))
    · rename_i resp heq
      have hout := rejectAfterTimeout_response_inv tb cfg.timeoutMs resp heq
      split at h
      · rename_i e₀ htr
        injection h with h
        exact Or.inr (Or.inr (Or.inr (Or.inr (Or.inl ⟨e₀, resp, h.symm, hout, htr⟩))))
      · rename_i txt htr
        split at h
        · split at h
          · injection h with h
            rename_i hj
            exact Or.inr (Or.inr (Or.inr (Or.inl ⟨txt, h.symm, hj⟩)))
          · simp at h
        · injection h with h
          unfold buildRequestErrorModel at h
          split at h
          · rename_i cm hpp
            exact Or.inr (Or.inl ⟨cm.1, cm.2, resp.status, resp.headers, txt, h.symm⟩)
          · exact Or.inr (Or.inr (Or.inl
              ⟨resp.status, unknownHTTPMessage resp.status none, resp.headers, txt, h.symm⟩))

/-- C8: when the body is absent or an empty mapping, no body string is
handed to the transport and the body-handling step sets no content-type
header (none is present whenever the auth material supplies none); when the
body is a non-empty mapping, it is JSON-serialized, the content-type header
is exactly `application/json`, and JSON-parsing the transmitted payload
returns the original mapping. -/
theorem claimC8 (cfg : ClientConfig) (p : RequestParameters) (w : WireRequest)
    (hbuild : buildWireRequest cfg p = Except.ok w) :
    ((p.body = none ∨ p.body = some JsonMembers.nil) →
      w.body = none
      ∧ (cfg.auth.filter (fun e => e.1 == "content-type") = [] →
          w.headers.filter (fun e => e.1 == "content-type") = []))
    ∧ (∀ m, p.body = some m → m ≠ JsonMembers.nil →
      w.body = some (Json.stringify (Json.obj m))
      ∧ List.lookup "content-type" w.headers = some "application/json"
      ∧ Json.parse (Json.stringify (Json.obj m)) = some (Json.obj m)) := by
  cases hu : urlFromString (cfg.prefixUrl ++ p.path) with
  | none => rw [buildWireRequest_urlErr cfg p hu] at hbuild; simp at hbuild
  | some u₀ =>
    cases ha : appendQuery u₀ p.query with
    | none => rw [buildWireRequest_uriErr cfg p u₀ hu ha] at hbuild; simp at hbuild
    | some url =>
      rw [buildWireRequest_ok cfg p u₀ url hu ha] at hbuild
      injection hbuild with hbuild
      subst hbuild
      constructor
      · intro hb
        have hbjs : bodyAsJsonString p.body = none := by
          rcases hb with hb | hb <;> rw [hb] <;> rfl
        simp only [hbjs]
        refine ⟨trivial, ?_⟩
        intro hauth
        rw [jsObjectSet_filter_ne _ _ _ _ (by decide)]
        exact hauth
      · intro m hm hmnil
        have hbjs : bodyAsJsonString p.body = some (Json.stringify (Json.obj m)) := by
          rw [hm]
          cases m with
          | nil => exact absurd rfl hmnil
          | cons k v t => rfl
        simp only [hbjs]
        exact ⟨trivial, jsObjectSet_lookup _ _ _, json_roundtrip (Json.obj m)⟩

/-- C7 (amended): provided the concatenated base URL and path contribute
no query entry under the key, a query mapping holding a length-n array
under that key yields exactly n entries for it in the assembled URL, in
array order, each element first decoded by `decodeURIComponent` and then
re-encoded by the query serializer of `url.toString()`; parameters whose
value is undefined are omitted entirely. -/
theorem claimC7_amended (cfg : ClientConfig) (p : RequestParameters)
    (entries : List (String × QueryValue)) (k : String)
    (vs dvs : List String) (u₀ : URLModel) (w : WireRequest)
    (hq : p.query = some (QueryParams.record entries))
    (hk : entries.filter (fun e => e.1 == k) = [(k, QueryValue.arr vs)])
    (hurl : urlFromString (cfg.prefixUrl ++ p.path) = some u₀)
    (hbase : u₀.searchParams.filter (fun e => e.1 == k) = [])
    (hdec : vs.mapM decodeURIComponentM = some dvs)
    (hbuild : buildWireRequest cfg p = Except.ok w) :
    w.url.searchParams.filter (fun e => e.1 == k) = dvs.map (fun d => (k, d))
    ∧ dvs.length = vs.length
    ∧ (w.url.searchParams.filter (fun e => e.1 == k)).map
        (fun e => formEncode e.1 ++ "=" ++ formEncode e.2)
      = dvs.map (fun d => formEncode k ++ "=" ++ formEncode d)
    ∧ (∀ j, entries.filter (fun e => e.1 == j) = [(j, QueryValue.undef)] →
        w.url.searchParams.filter (fun e => e.1 == j)
          = u₀.searchParams.filter (fun e => e.1 == j)) := by
  cases ha : appendQuery u₀ p.query with
  | none => rw [buildWireRequest_uriErr cfg p u₀ hurl ha] at hbuild; simp at hbuild
  | some url =>
    rw [buildWireRequest_ok cfg p u₀ url hurl ha] at hbuild
    injection hbuild with hbuild
    subst hbuild
    rw [hq] at ha
    simp only [appendQuery, objectEntries] at ha
    cases hm : entries.mapM (fun e => expandQueryEntry e.1 e.2) with
    | none => rw [hm] at ha; simp at ha
    | some ls =>
      rw [hm] at ha
      simp only [Option.map] at ha
      injection ha with ha
      subst ha
      have hfirst : (u₀.searchParams ++ ls.flatten).filter (fun e => e.1 == k)
          = dvs.map (fun d => (k, d)) := by
        obtain ⟨ls', hmap', hfilt⟩ := expansion_filter_key k entries ls hm
        rw [hk] at hmap'
        simp only [List.mapM_cons, List.mapM_nil, Option.bind_eq_bind, Option.pure_def,
          expandQueryEntry, hdec, Option.map_some, Option.some_bind,
          Option.some.injEq] at hmap'
        rw [List.filter_append, hbase, List.nil_append, hfilt]
        simp at hmap'
        subst hmap'
        simp
      refine ⟨hfirst, mapM_length decodeURIComponentM vs dvs hdec, ?_, ?_⟩
      · rw [hfirst]
        simp [List.map_map]
      · intro j hj
        obtain ⟨ls'', hmap'', hfilt''⟩ := expansion_filter_key j entries ls hm
        rw [hj] at hmap''
        simp only [List.mapM_cons, List.mapM_nil, Option.bind_eq_bind, Option.pure_def,
          expandQueryEntry, Option.some_bind, Option.some.injEq] at hmap''
        rw [List.filter_append, hfilt'']
        subst hmap''
        simp

def c1Body : String :=
  "\x7b\"code\":\"object_not_found\",\"message\":\"not found\"\x7d"

def c1Cfg : ClientConfig :=
  ClientConfig.mk [("x-key", "k1")] "https://api.example.com" 60000 "anteraja-client/0.3.0"

def c1Req : RequestParameters :=
  RequestParameters.mk "/serviceRates" Method.post none none none

def c1Resp : SupportedResponse Unit :=
  SupportedResponse.mk false 404 [("retry-after", "1")] (Except.ok c1Body)

def c1Tb : TransportBehavior Unit :=
  TransportBehavior.mk (some 5) (Except.ok c1Resp)

/-- Witness for C1 at a concrete 404 call with a structured error body. -/
theorem claimC1_witness :
    buildOk c1Cfg c1Req = true
    ∧ parseAPIErrorResponseBody c1Body = some ("object_not_found", "not found")
    ∧ requestOutcome c1Cfg c1Req c1Tb
      = Except.error (RequestError.api "object_not_found" "not found" 404
          [("retry-after", "1")] c1Body) :=
  ⟨by decide, by decide,
    claimC1 c1Cfg c1Req c1Tb c1Resp 5 c1Body "object_not_found" "not found"
      (by decide) rfl (by decide) rfl rfl rfl (by decide) (by decide)⟩

def c2Resp : SupportedResponse Unit :=
  SupportedResponse.mk true 200 [] (Except.ok "\x7b\"ok\":true\x7d")

def c2TbNever : TransportBehavior Unit :=
  TransportBehavior.mk none (Except.ok c2Resp)

def c2TbFast : TransportBehavior Unit :=
  TransportBehavior.mk (some 12) (Except.ok c2Resp)

/-- Witness for C2 at a never-settling and at a fast transport. -/
theorem claimC2_witness :
    requestOutcome c1Cfg c1Req c2TbNever = Except.error RequestError.timeout
    ∧ rejectAfterTimeout c2TbFast 60000 = RaceOutcome.response c2Resp
    ∧ raceTimerFires c2TbFast 60000 = false
    ∧ (clientOfOptions "0.3.0" (ClientOptions.mk none none none)).timeoutMs = 60000 :=
  ⟨(claimC2 c1Cfg c1Req c2TbNever).1
      (fun hs => by obtain ⟨t, ht, -⟩ := hs; exact Option.noConfusion ht) (by decide),
    ((claimC2 c1Cfg c1Req c2TbFast).2.1 12 rfl (by decide)).1 c2Resp rfl,
    ((claimC2 c1Cfg c1Req c2TbFast).2.1 12 rfl (by decide)).2.2,
    (claimC2 c1Cfg c1Req c2TbFast).2.2 "0.3.0" none none⟩

def c3Resp : SupportedResponse Unit :=
  SupportedResponse.mk false 500 [] (Except.ok "")

def c3Tb : TransportBehavior Unit :=
  TransportBehavior.mk (some 9) (Except.ok c3Resp)

/-- Witness for C3 at a concrete 500 response with an empty body. -/
theorem claimC3_witness :
    parseAPIErrorResponseBody "" = none
    ∧ requestOutcome c1Cfg c1Req c3Tb
      = Except.error (RequestError.unknownHTTP 500 "Request failed with status: 500" [] "") :=
  ⟨by decide,
    claimC3 c1Cfg c1Req c3Tb c3Resp 9 "" (by decide) rfl (by decide) rfl rfl rfl (by decide)⟩

def c4Body : String :=
  "\x7b\"code\":\"toString\",\"message\":\"boom\"\x7d"

def c4Resp : SupportedResponse Unit :=
  SupportedResponse.mk false 400 [] (Except.ok c4Body)

def c4Tb : TransportBehavior Unit :=
  TransportBehavior.mk (some 3) (Except.ok c4Resp)

/-- C4, failing input (code bug): the structured-error parser accepts a
body whose `code` is `"toString"`, which is not one of the eleven
`APIErrorCode` members: the `code in apiErrorCodes` test inside
`isAPIErrorCode` also finds the inherited properties of `Object.prototype`,
contradicting both the claim and the function's own
`code is APIErrorCode` type-guard annotation.  The call then rejects with
an `APIResponseError` carrying the code `"toString"`. -/
theorem claimC4_bug :
    parseAPIErrorResponseBody c4Body = some ("toString", "boom")
    ∧ "toString" ∉ apiErrorCodeStrings
    ∧ requestOutcome c1Cfg c1Req c4Tb
      = Except.error (RequestError.api "toString" "boom" 400 [] c4Body) :=
  ⟨by decide, by decide, by decide⟩

def c5Cfg : ClientConfig :=
  ClientConfig.mk [] "" 60000 "anteraja-client/0.3.0"

def c5Req : RequestParameters :=
  RequestParameters.mk "/serviceRates" Method.get none none none

def c5Tb : TransportBehavior Unit :=
  TransportBehavior.mk (some 1) (Except.ok c2Resp)

/-- C5, counterexample: with the constructor's default empty `baseUrl` and
a plain path, `new URL` throws a `TypeError`, and the call rejects with it;
that error is neither a member of the error taxonomy nor an error
propagated from body serialization, the text-read step, JSON-parsing of a
successful body, or the transport — refuting the claim as stated. -/
theorem claimC5_counterexample :
    requestOutcome c5Cfg c5Req c5Tb
      = Except.error (RequestError.urlTypeError : RequestError Unit)
    ∧ ¬ claimC5Allowed (RequestError.urlTypeError : RequestError Unit) :=
  ⟨by decide, fun hfalse => hfalse⟩

/-- Witness for C5's amended theorem at the default-base-URL call. -/
theorem claimC5_witness :
    (RequestError.urlTypeError : RequestError Unit) = RequestError.timeout
    ∨ (∃ code message status headers body, (RequestError.urlTypeError : RequestError Unit)
        = RequestError.api code message status headers body)
    ∨ (∃ status message headers body, (RequestError.urlTypeError : RequestError Unit)
        = RequestError.unknownHTTP status message headers body)
    ∨ (∃ raw, (RequestError.urlTypeError : RequestError Unit)
        = RequestError.successBodyParse raw ∧ Json.parse raw = none)
    ∨ (∃ e₀ resp, (RequestError.urlTypeError : RequestError Unit) = RequestError.textRead e₀
        ∧ c5Tb.outcome = Except.ok resp ∧ resp.textResult = Except.error e₀)
    ∨ (∃ e₀, (RequestError.urlTypeError : RequestError Unit) = RequestError.transport e₀
        ∧ c5Tb.outcome = Except.error e₀)
    ∨ ((RequestError.urlTypeError : RequestError Unit) = RequestError.urlTypeError
        ∧ urlFromString (c5Cfg.prefixUrl ++ c5Req.path) = none)
    ∨ ((RequestError.urlTypeError : RequestError Unit) = RequestError.uriError
        ∧ ∃ u₀, urlFromString (c5Cfg.prefixUrl ++ c5Req.path) = some u₀
          ∧ appendQuery u₀ c5Req.query = none) :=
  claimC5_amended c5Cfg c5Req c5Tb RequestError.urlTypeError (by decide)

/-- C6, counterexample: a call with no body at all — so serialization is
never attempted — whose concatenated base URL and path has no scheme makes
the Request Builder fail with the `TypeError` of `new URL`, refuting that
the builder can fail only when JSON serialization of the body fails. -/
theorem claimC6_counterexample :
    buildWireRequest c5Cfg c5Req = Except.error JsError.urlTypeError
    ∧ c5Req.body = none :=
  ⟨by decide, rfl⟩

/-- Witness for C6's amended theorem at the default-base-URL call. -/
theorem claimC6_witness :
    (JsError.urlTypeError = JsError.urlTypeError
      ∧ urlFromString (c5Cfg.prefixUrl ++ c5Req.path) = none)
    ∨ (JsError.urlTypeError = JsError.uriError
      ∧ ∃ u₀, urlFromString (c5Cfg.prefixUrl ++ c5Req.path) = some u₀
        ∧ appendQuery u₀ c5Req.query = none) :=
  claimC6_amended c5Cfg c5Req JsError.urlTypeError (by decide)

def c7Cfg : ClientConfig :=
  ClientConfig.mk [] "https://e.com/p?k=0" 60000 "ua7"

def c7Req : RequestParameters :=
  RequestParameters.mk "" Method.get
    (some (QueryParams.record [("k", QueryValue.arr ["a"])])) none none

/-- C7, counterexample: with base URL `https://e.com/p?k=0`, a query
mapping holding the length-1 array `["a"]` under `k` produces a URL whose
query carries two entries for `k` — the pre-existing one and the appended
one — rather than exactly one, refuting the unconditional count of the
claim as stated. -/
theorem claimC7_counterexample :
    Except.map (fun w => ((w.url.searchParams.filter (fun e => e.1 == "k")).length))
      (buildWireRequest c7Cfg c7Req) = Except.ok 2
    ∧ c7Req.query = some (QueryParams.record [("k", QueryValue.arr ["a"])]) :=
  ⟨by decide, rfl⟩

def c7bCfg : ClientConfig :=
  ClientConfig.mk [] "https://e.com/p" 60000 "ua7"

def c7bEntries : List (String × QueryValue) :=
  [("k", QueryValue.arr ["a%20b"]), ("u", QueryValue.undef)]

def c7bReq : RequestParameters :=
  RequestParameters.mk "" Method.get (some (QueryParams.record c7bEntries)) none none

def c7U : URLModel := URLModel.mk "https://e.com/p" []

def c7W : WireRequest :=
  WireRequest.mk (URLModel.mk "https://e.com/p" [("k", "a b")]) "GET"
    [("user-agent", "ua7")] none

/-- Witness for C7's amended theorem at a concrete array query. -/
theorem claimC7_witness :
    List.mapM decodeURIComponentM ["a%20b"] = some ["a b"]
    ∧ buildWireRequest c7bCfg c7bReq = Except.ok c7W
    ∧ (c7W.url.searchParams.filter (fun e => e.1 == "k") = [("k", "a b")].map (fun d => d)
      ∧ ([("a b")] : List String).length = (["a%20b"] : List String).length
      ∧ (c7W.url.searchParams.filter (fun e => e.1 == "k")).map
          (fun e => formEncode e.1 ++ "=" ++ formEncode e.2)
        = (["a b"] : List String).map (fun d => formEncode "k" ++ "=" ++ formEncode d)
      ∧ (∀ j, c7bEntries.filter (fun e => e.1 == j) = [(j, QueryValue.undef)] →
          c7W.url.searchParams.filter (fun e => e.1 == j)
            = c7U.searchParams.filter (fun e => e.1 == j))) := by
  refine ⟨by decide, by decide, ?_⟩
  have h := claimC7_amended c7bCfg c7bReq c7bEntries "k" ["a%20b"] ["a b"] c7U c7W
    rfl (by decide) (by decide) rfl (by decide) (by decide)
  obtain ⟨h1, h2, h3, h4⟩ := h
  exact ⟨by rw [h1]; decide, by decide, by rw [h3], h4⟩

def c8Cfg : ClientConfig :=
  ClientConfig.mk [("x-key", "k1")] "https://api.example.com" 60000 "ua8"

def c8Body : JsonMembers := JsonMembers.cons "ok" (Json.bool true) JsonMembers.nil

def c8Req : RequestParameters :=
  RequestParameters.mk "/things" Method.post none (some c8Body) none

def c8W : WireRequest :=
  WireRequest.mk (URLModel.mk "https://api.example.com/things" []) "POST"
    [("x-key", "k1"), ("user-agent", "ua8"), ("content-type", "application/json")]
    (some "\x7b\"ok\":true\x7d")

/-- Witness for C8 at a concrete non-empty body. -/
theorem claimC8_witness :
    buildWireRequest c8Cfg c8Req = Except.ok c8W
    ∧ c8W.body = some (Json.stringify (Json.obj c8Body))
    ∧ List.lookup "content-type" c8W.headers = some "application/json"
    ∧ Json.parse (Json.stringify (Json.obj c8Body)) = some (Json.obj c8Body) :=
  ⟨by decide,
    (claimC8 c8Cfg c8Req c8W (by decide)).2 c8Body rfl (by decide)⟩

/-- Witness for C9 at a concrete repeated call. -/
theorem claimC9_witness :
    requestOutcome c1Cfg c1Req c1Tb = requestOutcome c1Cfg c1Req c1Tb :=
  claimC9 c1Cfg c1Req c1Tb c1Tb rfl rfl
